import Mathlib

/-!
# Verification of `iter-progress-rs` (src/src/lib.rs)

Shallow embedding of the crate's two components:

* `ProgressRecord` — the immutable progress snapshot, with its derived
  metrics (`num_done`, `duration_since_start`, `rate`, `fraction`,
  `percent`, `message`, `should_print_every_items`, `is_size_known`).
* `ProgressRecorderIter` — the wrapping iterator adapter
  (`new`, `generate_record`, `next`).

Modelling choices, each forced by the Rust source:

* Rust iterators (`Iterator::next(&mut self) -> Option<Item>` together
  with `size_hint`) are modelled as a structure `Iter σ α` with
  `next : σ → Option α × σ`: every call may advance the state, even a
  call that returns `none` — exactly as `&mut self` permits.
* Timestamps (`time::Tm`) and durations (`time::Duration`) are modelled
  as `Int` counts of nanoseconds.  `now_utc()` is an effect, so every
  operation that reads the clock takes the current time as an explicit
  argument.  `Duration::num_seconds` truncates toward zero, which is
  `Int.tdiv`.
* `f32` values produced by `rate` are modelled by `F32`: an exact
  rational for finite results plus the IEEE special values that the
  division contract of the claims mentions.  Rounding of finite results
  is not modelled; division by zero follows IEEE-754 sign rules.
* `usize` arithmetic: `ProgressRecord.num` is a `Nat`; the modulo-by-zero
  panic of `should_print_every_items` is modelled by returning `none`.
-/

/-- The IEEE special values relevant to `f32` division in this crate,
with finite values kept as exact rationals (rounding is not modelled). -/
inductive F32 where
  | finite (q : ℚ)
  | posInf
  | negInf
  | nan
deriving DecidableEq

/-- Model of `f32` division on exactly representable operands: division
by zero yields a signed infinity (or NaN for 0/0), per IEEE-754; other
quotients are kept exact. -/
def f32div (a b : ℚ) : F32 :=
  if b = 0 then
    if 0 < a then F32.posInf
    else if a < 0 then F32.negInf
    else F32.nan
  else F32.finite (a / b)

/-- One nanosecond-per-second scale for the `Duration` model. -/
def nanosPerSecond : Int := 1000000000

/-- `time::Duration::num_seconds`: whole seconds, truncated toward zero
(`Int.tdiv` is T-division, matching the Rust library). Durations are
modelled as `Int` nanosecond counts. -/
def Duration.num_seconds (d : Int) : Int := Int.tdiv d nanosPerSecond

/-- `pub struct ProgressRecord { num: usize, iterating_for: Duration,
size_hint: (usize, Option<usize>) }`. -/
structure ProgressRecord where
  num : Nat
  iterating_for : Int
  size_hint : Nat × Option Nat
deriving DecidableEq

namespace ProgressRecord

/-- `pub fn num_done(&self) -> usize { self.num }` -/
def num_done (r : ProgressRecord) : Nat := r.num

/-- `pub fn duration_since_start(&self) -> Duration { self.iterating_for }` -/
def duration_since_start (r : ProgressRecord) : Int := r.iterating_for

/-- `format!("Have seen {} items and been iterating for {}",
self.num_done(), self.iterating_for.num_seconds())` -/
def message (r : ProgressRecord) : String :=
  "Have seen " ++ toString r.num_done ++ " items and been iterating for "
    ++ toString (Duration.num_seconds r.iterating_for)

/-- `pub fn rate(&self) -> f32 { (self.num_done() as f32) /
(self.duration_since_start().num_seconds() as f32) }` -/
def rate (r : ProgressRecord) : F32 :=
  f32div (r.num_done : ℚ) ((Duration.num_seconds r.duration_since_start : Int) : ℚ)

/-- `fn is_size_known(&self) -> bool`: matches on `size_hint.1`,
false for `None`, else compares with `size_hint.0`. -/
def is_size_known (r : ProgressRecord) : Bool :=
  match r.size_hint.2 with
  | none => false
  | some x => r.size_hint.1 == x

/-- `pub fn fraction(&self) -> Option<f32>`: when `is_size_known`,
`Some(done / (remaining + done))` with `remaining = size_hint.0`,
else `None`.  The `f32` quotient is kept as an exact rational. -/
def fraction (r : ProgressRecord) : Option ℚ :=
  if r.is_size_known then
    some ((r.num_done : ℚ) / (((r.size_hint.1 + r.num_done : Nat)) : ℚ))
  else
    none

/-- `pub fn percent(&self) -> Option<f32>`: `fraction` scaled by 100. -/
def percent (r : ProgressRecord) : Option ℚ :=
  match r.fraction with
  | none => none
  | some f => some (f * 100)

/-- `pub fn should_print_every_items(&self, n: usize) -> bool {
(self.num_done() - 1) % n == 0 }`.  `% 0` panics in Rust; the panic is
modelled as `none`.  (For `num_done ≥ 1`, which holds for every record
the adapter builds, `usize` subtraction agrees with `Nat` subtraction.) -/
def should_print_every_items (r : ProgressRecord) (n : Nat) : Option Bool :=
  if n = 0 then none
  else some ((r.num_done - 1) % n == 0)

end ProgressRecord

/-- Model of a Rust `Iterator` with its `size_hint`: `next` takes the
iterator state and returns the optional item together with the new
state (a `none`-returning call may still advance the state, as
`&mut self` allows). -/
structure Iter (σ α : Type) where
  next : σ → Option α × σ
  size_hint : σ → Nat × Option Nat

/-- `pub struct ProgressRecorderIter<I> { iter: I, count: usize,
started_iterating: Tm }`. -/
structure ProgressRecorderIter (σ : Type) where
  iter : σ
  count : Nat
  started_iterating : Int
deriving DecidableEq

namespace ProgressRecorderIter

/-- `pub fn new(iter: I) -> ProgressRecorderIter<I>`: stores the source,
`count = 0`, and the construction-time clock reading. -/
def new {σ : Type} (s : σ) (now : Int) : ProgressRecorderIter σ :=
  { iter := s, count := 0, started_iterating := now }

/-- `fn generate_record(&mut self) -> ProgressRecord`: increments
`count`, then builds the record from the new count, `now -
started_iterating`, and the source's current `size_hint`.  Returns the
record together with the updated adapter. -/
def generate_record {σ α : Type} (it : Iter σ α) (p : ProgressRecorderIter σ)
    (now : Int) : ProgressRecord × ProgressRecorderIter σ :=
  let c := p.count + 1
  (⟨c, now - p.started_iterating, it.size_hint p.iter⟩, { p with count := c })

/-- `fn next(&mut self) -> Option<(ProgressRecord, Item)>`: pulls from
the source (which updates the stored source state), and on success calls
`generate_record` on the updated adapter; on exhaustion returns `None`
with `count` untouched. -/
def next {σ α : Type} (it : Iter σ α) (p : ProgressRecorderIter σ)
    (now : Int) : Option (ProgressRecord × α) × ProgressRecorderIter σ :=
  match it.next p.iter with
  | (none, s) => (none, { p with iter := s })
  | (some a, s) =>
      let pr := generate_record it { p with iter := s } now
      (some (pr.1, a), pr.2)

end ProgressRecorderIter

/-- Pull from the adapter once per entry of `ts` (the clock reading for
each pull), collecting the outputs and the final adapter state. -/
def runPulls {σ α : Type} (it : Iter σ α) (p : ProgressRecorderIter σ) :
    List Int → List (Option (ProgressRecord × α)) × ProgressRecorderIter σ
  | [] => ([], p)
  | t :: ts =>
      let o := ProgressRecorderIter.next it p t
      let rest := runPulls it o.2 ts
      (o.1 :: rest.1, rest.2)

/-- Pull from the bare source `n` times, collecting outputs and the
final source state. -/
def runSource {σ α : Type} (it : Iter σ α) (s : σ) :
    Nat → List (Option α) × σ
  | 0 => ([], s)
  | n + 1 =>
      let o := it.next s
      let rest := runSource it o.2 n
      (o.1 :: rest.1, rest.2)

/-- The records of the successful pulls among a list of adapter outputs,
in order. -/
def successRecords {α : Type} (outs : List (Option (ProgressRecord × α))) :
    List ProgressRecord :=
  (outs.filterMap id).map Prod.fst

/-! ## Concrete records used by the witnesses -/

/-- A record as produced by the first pull of the crate's `test_size_hint`
test: one item done, zero elapsed, five-element vector so four remain with
an exact hint. -/
def rKnown : ProgressRecord := ⟨1, 0, (4, some 4)⟩

/-- A record whose size hint has no upper bound (an unbounded source). -/
def rUnknown : ProgressRecord := ⟨3, 0, (5, none)⟩

/-- A record with 2.5 elapsed seconds (in nanoseconds) and an exhausted
exact hint. -/
def rTimed : ProgressRecord := ⟨4, 2500000000, (0, some 0)⟩

/-! ## Claims about `ProgressRecord` -/

/-- C2: `fraction()` returns `count / (count + lower_bound)` exactly when
the stored size estimate's upper bound is present and equals its lower
bound, and returns `none` ("unknown") otherwise; in particular, whenever
the upper bound is absent, `fraction()` and `percent()` return `none`. -/
theorem fraction_known_size_spec (r : ProgressRecord) :
    (r.size_hint.2 = some r.size_hint.1 →
      r.fraction
        = some ((r.num_done : ℚ) / ((r.num_done + r.size_hint.1 : Nat) : ℚ))) ∧
    (r.size_hint.2 ≠ some r.size_hint.1 → r.fraction = none) ∧
    (r.size_hint.2 = none → r.fraction = none ∧ r.percent = none) := by
  refine ⟨?_, ?_, ?_⟩
  · intro h
    simp [ProgressRecord.fraction, ProgressRecord.is_size_known, h,
      Nat.add_comm]
  · intro h
    rcases hu : r.size_hint.2 with _ | x
    · simp [ProgressRecord.fraction, ProgressRecord.is_size_known, hu]
    · have hx : r.size_hint.1 ≠ x := fun hxx => h (by rw [hu, hxx])
      simp [ProgressRecord.fraction, ProgressRecord.is_size_known, hu, hx]
  · intro h
    simp [ProgressRecord.fraction, ProgressRecord.percent,
      ProgressRecord.is_size_known, h]

/-- Witness for C2 at concrete records. -/
theorem fraction_known_size_spec_witness :
    ProgressRecord.fraction rKnown
      = some ((rKnown.num_done : ℚ)
          / ((rKnown.num_done + rKnown.size_hint.1 : Nat) : ℚ)) ∧
    ProgressRecord.fraction rUnknown = none ∧
    ProgressRecord.percent rUnknown = none :=
  ⟨(fraction_known_size_spec rKnown).1 rfl,
   ((fraction_known_size_spec rUnknown).2.2 rfl).1,
   ((fraction_known_size_spec rUnknown).2.2 rfl).2⟩

/-- C4 counterexample: on the record of the first pull of the crate's own
`test_simple` test, `message()` is "Have seen 1 items and been iterating
for 0" — there is no trailing " seconds" word, so the claimed format
string "Have seen {count} items and been iterating for {seconds} seconds"
is not what the code returns. -/
theorem message_no_seconds_suffix_counterexample :
    ProgressRecord.message rKnown
        = "Have seen 1 items and been iterating for 0" ∧
    ProgressRecord.message rKnown
        ≠ "Have seen 1 items and been iterating for 0 seconds" := by
  exact ⟨rfl, by decide⟩

/-- C4 (amended): `message()` returns exactly
"Have seen {count} items and been iterating for {seconds}" — the count,
then the elapsed whole seconds, with no trailing " seconds" unit word —
and for a non-negative elapsed duration the seconds shown are the floor
of the nanosecond duration divided by 10^9 (truncated, not fractional). -/
theorem message_format_spec (r : ProgressRecord) (h : 0 ≤ r.iterating_for) :
    r.message = "Have seen " ++ toString r.num_done
      ++ " items and been iterating for "
      ++ toString (Duration.num_seconds r.iterating_for) ∧
    Duration.num_seconds r.iterating_for = r.iterating_for / nanosPerSecond := by
  refine ⟨rfl, ?_⟩
  exact Int.tdiv_eq_ediv h (by decide)

/-- Witness for C4's amended theorem at a concrete record. -/
theorem message_format_spec_witness :
    ProgressRecord.message rTimed = "Have seen " ++ toString rTimed.num_done
      ++ " items and been iterating for "
      ++ toString (Duration.num_seconds rTimed.iterating_for) ∧
    Duration.num_seconds rTimed.iterating_for
      = rTimed.iterating_for / nanosPerSecond :=
  message_format_spec rTimed (by decide)

/-- C6: for every adapter-produced snapshot (count ≥ 1) and every n > 0,
`should_print_every_items n` returns true iff `(count - 1) % n == 0`;
in particular it returns true whenever count = 1. -/
theorem should_print_every_iff (r : ProgressRecord) (n : Nat)
    (hn : 0 < n) (hc : 1 ≤ r.num_done) :
    (r.should_print_every_items n = some true ↔ (r.num_done - 1) % n = 0) ∧
    (r.num_done = 1 → r.should_print_every_items n = some true) := by
  have hn' : n ≠ 0 := Nat.pos_iff_ne_zero.mp hn
  constructor
  · simp [ProgressRecord.should_print_every_items, hn']
  · intro h1
    simp [ProgressRecord.should_print_every_items, hn', h1]

/-- Witness for C6 at a concrete record and period. -/
theorem should_print_every_iff_witness :
    (ProgressRecord.should_print_every_items rKnown 7 = some true
        ↔ (rKnown.num_done - 1) % 7 = 0) ∧
    (rKnown.num_done = 1
        → ProgressRecord.should_print_every_items rKnown 7 = some true) :=
  should_print_every_iff rKnown 7 (by decide) (by decide)

/-- C7: `should_print_every_items` fails (the Rust modulo-by-zero panic,
modelled as `none`) exactly when the period n is 0; for every n > 0 it
completes normally with a value. -/
theorem should_print_every_error_iff (r : ProgressRecord) (n : Nat)
    (hc : 1 ≤ r.num_done) :
    r.should_print_every_items n = none ↔ n = 0 := by
  unfold ProgressRecord.should_print_every_items
  by_cases hn : n = 0 <;> simp [hn]

/-- Witness for C7 at a concrete record, at the failing period 0. -/
theorem should_print_every_error_iff_witness :
    ProgressRecord.should_print_every_items rKnown 0 = none ↔ (0 : Nat) = 0 :=
  should_print_every_error_iff rKnown 0 (by decide)

/-- C8: for every adapter-produced snapshot (count ≥ 1), when the elapsed
whole seconds are 0 `rate()` is positive infinity — not an error and not
zero — and for positive elapsed seconds it is count divided by the
seconds. -/
theorem rate_zero_seconds_posInf (r : ProgressRecord) (hc : 1 ≤ r.num_done) :
    (Duration.num_seconds r.duration_since_start = 0 → r.rate = F32.posInf) ∧
    (0 < Duration.num_seconds r.duration_since_start →
      r.rate = F32.finite ((r.num_done : ℚ)
        / ((Duration.num_seconds r.duration_since_start : Int) : ℚ))) := by
  have hpos : (0 : ℚ) < (r.num_done : ℚ) := by exact_mod_cast hc
  constructor
  · intro h0
    simp [ProgressRecord.rate, f32div, h0, hpos]
  · intro hp
    have hne : ((Duration.num_seconds r.duration_since_start : Int) : ℚ) ≠ 0 := by
      exact_mod_cast hp.ne'
    simp [ProgressRecord.rate, f32div, hne]

/-- Witness for C8: zero-second record gives positive infinity, a
2-second record gives the finite quotient. -/
theorem rate_zero_seconds_posInf_witness :
    ProgressRecord.rate rKnown = F32.posInf ∧
    ProgressRecord.rate rTimed = F32.finite ((rTimed.num_done : ℚ)
      / ((Duration.num_seconds rTimed.duration_since_start : Int) : ℚ)) :=
  ⟨(rate_zero_seconds_posInf rKnown (by decide)).1 (by decide),
   (rate_zero_seconds_posInf rTimed (by decide)).2 (by decide)⟩

/-! ## Helper lemmas about the adapter's step -/

/-- The construction-time clock reading is never changed by a pull. -/
theorem next_preserves_start {σ α : Type} (it : Iter σ α)
    (p : ProgressRecorderIter σ) (t : Int) :
    (ProgressRecorderIter.next it p t).2.started_iterating
      = p.started_iterating := by
  unfold ProgressRecorderIter.next
  rcases hnx : it.next p.iter with ⟨o, s⟩
  rcases o with _ | a <;>
    simp [hnx, ProgressRecorderIter.generate_record]

/-- On a successful pull the record carries the incremented count and the
elapsed time `now - started_iterating`, and the adapter's count becomes
that same incremented count. -/
theorem next_some_fields {σ α : Type} (it : Iter σ α)
    (p : ProgressRecorderIter σ) (t : Int) (r : ProgressRecord) (a : α)
    (h : (ProgressRecorderIter.next it p t).1 = some (r, a)) :
    r.num = p.count + 1 ∧ r.iterating_for = t - p.started_iterating ∧
    (ProgressRecorderIter.next it p t).2.count = p.count + 1 := by
  rcases hnx : it.next p.iter with ⟨o, s⟩
  rcases o with _ | b
  · have hstep : ProgressRecorderIter.next it p t
        = (none, { p with iter := s }) := by
      simp [ProgressRecorderIter.next, hnx]
    rw [hstep] at h
    simp at h
  · have hstep : ProgressRecorderIter.next it p t
        = (some ((ProgressRecorderIter.generate_record it
              { p with iter := s } t).1, b),
           (ProgressRecorderIter.generate_record it
              { p with iter := s } t).2) := by
      simp [ProgressRecorderIter.next, hnx]
    rw [hstep] at h
    simp only [Option.some.injEq, Prod.mk.injEq] at h
    rw [hstep, ← h.1]
    simp [ProgressRecorderIter.generate_record]

/-- On an exhausted pull the adapter returns `none` and its count is
untouched. -/
theorem next_none_fields {σ α : Type} (it : Iter σ α)
    (p : ProgressRecorderIter σ) (t : Int)
    (h : (it.next p.iter).1 = none) :
    (ProgressRecorderIter.next it p t).1 = none ∧
    (ProgressRecorderIter.next it p t).2.count = p.count := by
  unfold ProgressRecorderIter.next
  rcases hnx : it.next p.iter with ⟨o, s⟩
  rw [hnx] at h
  rcases o with _ | b
  · simp
  · simp at h

/-- Invariant of a run: the counts recorded by the successful pulls are
consecutive starting just above the initial count, and the adapter's
final count is the initial count plus the number of successes. -/
theorem runPulls_nums {σ α : Type} (it : Iter σ α) :
    ∀ (ts : List Int) (p : ProgressRecorderIter σ),
      (successRecords (runPulls it p ts).1).map ProgressRecord.num
          = List.range' (p.count + 1)
              (successRecords (runPulls it p ts).1).length 1 ∧
      (runPulls it p ts).2.count
          = p.count + (successRecords (runPulls it p ts).1).length := by
  intro ts
  induction ts with
  | nil => intro p; simp [runPulls, successRecords]
  | cons t ts ih =>
      intro p
      rcases hnx : it.next p.iter with ⟨o, s⟩
      rcases o with _ | a
      · have hstep : ProgressRecorderIter.next it p t
            = (none, { p with iter := s }) := by
          simp [ProgressRecorderIter.next, hnx]
        obtain ⟨ih1, ih2⟩ := ih { p with iter := s }
        constructor
        · simpa [runPulls, hstep, successRecords] using ih1
        · simpa [runPulls, hstep, successRecords] using ih2
      · have hstep : ProgressRecorderIter.next it p t
            = (some ((ProgressRecorderIter.generate_record it
                  { p with iter := s } t).1, a),
               (ProgressRecorderIter.generate_record it
                  { p with iter := s } t).2) := by
          simp [ProgressRecorderIter.next, hnx]
        obtain ⟨ih1, ih2⟩ :=
          ih (ProgressRecorderIter.generate_record it { p with iter := s } t).2
        have hh : (ProgressRecorderIter.generate_record it
            { p with iter := s } t).1.num = p.count + 1 := by
          simp [ProgressRecorderIter.generate_record]
        have hc2 : (ProgressRecorderIter.generate_record it
            { p with iter := s } t).2.count = p.count + 1 := by
          simp [ProgressRecorderIter.generate_record]
        constructor
        · simp only [runPulls, hstep, successRecords, List.filterMap_cons,
            id, List.map_cons, List.length_cons]
          rw [List.range'_succ, hh]
          rw [hc2] at ih1
          simp only [successRecords] at ih1
          rw [ih1]
        · simp only [runPulls, hstep, successRecords, List.filterMap_cons,
            id, List.map_cons, List.length_cons]
          rw [hc2] at ih2
          have := ih2
          simp only [successRecords] at this
          rw [this]
          omega

/-! ## Concrete sources and adapter states used by witnesses and
counterexamples -/

/-- A three-element source on `Nat` states: states 0, 1, 2 yield their
state value and advance; state 3 reports exhaustion and stays put.
`size_hint` is the exact remaining count. -/
def srcThree : Iter Nat Nat where
  next s := if s < 3 then (some s, s + 1) else (none, s)
  size_hint s := (3 - s, some (3 - s))

/-- An adapter whose source (`srcThree`) is already exhausted. -/
def pEx : ProgressRecorderIter Nat := ⟨3, 7, 0⟩

/-- A two-element source on the finite state space `Fin 3`, sticky at its
exhausted state 2. -/
def srcFinTwo : Iter (Fin 3) Nat where
  next s := if h : s.val + 1 < 3 then (some s.val, ⟨s.val + 1, h⟩) else (none, s)
  size_hint s := (2 - s.val, some (2 - s.val))

/-- An adapter over `srcFinTwo` sitting at the exhausted state. -/
def pExhausted : ProgressRecorderIter (Fin 3) := ⟨⟨2, by decide⟩, 5, 0⟩

/-- A source that uses the latitude Rust's `Iterator` contract grants
non-fused iterators: from state 0 it reports exhaustion once, then from
state 1 it yields 42 again. -/
def srcResurrect : Iter Nat Nat where
  next s :=
    if s = 0 then (none, 1) else if s = 1 then (some 42, 2) else (none, s)
  size_hint _ := (0, none)

/-- The record of the first pull of `srcThree` at time 5 (started at 0). -/
def rW1 : ProgressRecord := ⟨1, 5, (2, some 2)⟩

/-- The record of the second pull of `srcThree` at time 9 (started at 0). -/
def rW2 : ProgressRecord := ⟨2, 9, (1, some 1)⟩

/-! ## Claims about the adapter -/

/-- C1: starting from `new` (count 0), the record of the n-th successful
pull reports `num_done = n`; and a pull on which the source reports
exhaustion returns `none`, produces no record, and leaves the counter
unchanged. -/
theorem nth_successful_pull_num_done {σ α : Type} (it : Iter σ α)
    (s : σ) (t0 : Int) (ts : List Int) :
    (∀ i (h : i < (successRecords
          (runPulls it (ProgressRecorderIter.new s t0) ts).1).length),
        ((successRecords
          (runPulls it (ProgressRecorderIter.new s t0) ts).1).get
            ⟨i, h⟩).num_done = i + 1) ∧
    (∀ (p : ProgressRecorderIter σ) (t : Int), (it.next p.iter).1 = none →
        (ProgressRecorderIter.next it p t).1 = none ∧
        (ProgressRecorderIter.next it p t).2.count = p.count) := by
  constructor
  · intro i h
    have key : (successRecords
          (runPulls it (ProgressRecorderIter.new s t0) ts).1).map
            ProgressRecord.num
        = List.range' 1 (successRecords
            (runPulls it (ProgressRecorderIter.new s t0) ts).1).length 1 := by
      simpa [ProgressRecorderIter.new]
        using (runPulls_nums it ts (ProgressRecorderIter.new s t0)).1
    have hq := congrArg (fun l => l[i]?) key
    simp only [List.getElem?_map, List.getElem?_eq_getElem h,
      List.getElem?_range' 1 1 h] at hq
    simp only [Option.map_some', Option.some.injEq] at hq
    simp only [ProgressRecord.num_done, List.get_eq_getElem]
    omega
  · intro p t ht
    exact next_none_fields it p t ht

/-- Witness for C1: three successful pulls of a concrete source (the
third record reports 3), and an exhausted pull that changes nothing. -/
theorem nth_successful_pull_num_done_witness :
    ((successRecords (runPulls srcThree
        (ProgressRecorderIter.new 0 0) [0, 1, 2, 3]).1).get
      ⟨2, by decide⟩).num_done = 2 + 1 ∧
    ((ProgressRecorderIter.next srcThree pEx 9).1 = none ∧
      (ProgressRecorderIter.next srcThree pEx 9).2.count = pEx.count) :=
  ⟨(nth_successful_pull_num_done srcThree 0 0 [0, 1, 2, 3]).1 2 (by decide),
   (nth_successful_pull_num_done srcThree 0 0 [0, 1, 2, 3]).2 pEx 9 (by decide)⟩

/-- Run invariant for C5: the element components of the adapter's outputs
are exactly the bare source's outputs, and the stored source state stays
in lockstep with the bare source's state. -/
theorem runPulls_elements {σ α : Type} (it : Iter σ α) :
    ∀ (ts : List Int) (p : ProgressRecorderIter σ),
      (runPulls it p ts).1.map (Option.map Prod.snd)
          = (runSource it p.iter ts.length).1 ∧
      (runPulls it p ts).2.iter = (runSource it p.iter ts.length).2 := by
  intro ts
  induction ts with
  | nil => intro p; simp [runPulls, runSource]
  | cons t ts ih =>
      intro p
      rcases hnx : it.next p.iter with ⟨o, s⟩
      rcases o with _ | a
      · have hstep : ProgressRecorderIter.next it p t
            = (none, { p with iter := s }) := by
          simp [ProgressRecorderIter.next, hnx]
        obtain ⟨ih1, ih2⟩ := ih { p with iter := s }
        constructor
        · simp [runPulls, hstep, runSource, hnx, ih1]
        · simp [runPulls, hstep, runSource, hnx, ih2]
      · have hstep : ProgressRecorderIter.next it p t
            = (some ((ProgressRecorderIter.generate_record it
                  { p with iter := s } t).1, a),
               (ProgressRecorderIter.generate_record it
                  { p with iter := s } t).2) := by
          simp [ProgressRecorderIter.next, hnx]
        obtain ⟨ih1, ih2⟩ :=
          ih (ProgressRecorderIter.generate_record it { p with iter := s } t).2
        constructor
        · have ih1' : List.map (Option.map Prod.snd)
              (runPulls it (ProgressRecorderIter.generate_record it
                { p with iter := s } t).2 ts).1
              = (runSource it s ts.length).1 := by
            simpa [ProgressRecorderIter.generate_record] using ih1
          simp [runPulls, hstep, runSource, hnx, ih1']
        · simp only [runPulls, hstep, runSource, hnx]
          simpa [ProgressRecorderIter.generate_record] using ih2

/-- C5: wrapping a source in the adapter changes nothing about the
underlying production: over any number of pulls (so for finite and
infinite sources alike), the element components of the adapter's outputs
equal, in value and order, the outputs of the bare source. -/
theorem adapter_preserves_elements {σ α : Type} (it : Iter σ α)
    (s : σ) (t0 : Int) (ts : List Int) :
    (runPulls it (ProgressRecorderIter.new s t0) ts).1.map
        (Option.map Prod.snd)
      = (runSource it s ts.length).1 :=
  (runPulls_elements it ts (ProgressRecorderIter.new s t0)).1

/-- C9: across two successive successful pulls of the same adapter (the
clock readings being non-decreasing), the later record's elapsed duration
is at least the earlier one's. -/
theorem elapsed_monotone {σ α : Type} (it : Iter σ α)
    (p : ProgressRecorderIter σ) (t₁ t₂ : Int) (h12 : t₁ ≤ t₂)
    (r₁ r₂ : ProgressRecord) (a₁ a₂ : α)
    (h₁ : (ProgressRecorderIter.next it p t₁).1 = some (r₁, a₁))
    (h₂ : (ProgressRecorderIter.next it
        (ProgressRecorderIter.next it p t₁).2 t₂).1 = some (r₂, a₂)) :
    r₁.duration_since_start ≤ r₂.duration_since_start := by
  obtain ⟨-, e₁, -⟩ := next_some_fields it p t₁ r₁ a₁ h₁
  obtain ⟨-, e₂, -⟩ := next_some_fields it _ t₂ r₂ a₂ h₂
  rw [next_preserves_start] at e₂
  unfold ProgressRecord.duration_since_start
  rw [e₁, e₂]
  exact sub_le_sub_right h12 _

/-- Witness for C9: two successive pulls of `srcThree` at times 5 then 9. -/
theorem elapsed_monotone_witness :
    rW1.duration_since_start ≤ rW2.duration_since_start :=
  elapsed_monotone srcThree (ProgressRecorderIter.new 0 0) 5 9 (by decide)
    rW1 rW2 0 1 (by decide) (by decide)

/-- C3 counterexample: over the resurrecting source `srcResurrect`
(permitted by Rust's `Iterator` contract for non-fused iterators), the
adapter's first pull returns `none`, yet its second pull produces an
element again and the count moves from 0 to 1 — so exhaustion of the
adapter is not sticky for every source. -/
theorem sticky_exhaustion_counterexample :
    (ProgressRecorderIter.next srcResurrect
        (ProgressRecorderIter.new 0 0) 0).1 = none ∧
    (ProgressRecorderIter.next srcResurrect
        (ProgressRecorderIter.next srcResurrect
          (ProgressRecorderIter.new 0 0) 0).2 1).1 ≠ none ∧
    (ProgressRecorderIter.next srcResurrect
        (ProgressRecorderIter.next srcResurrect
          (ProgressRecorderIter.new 0 0) 0).2 1).2.count
      ≠ (ProgressRecorderIter.new (0 : Nat) 0).count := by
  refine ⟨by decide, by decide, by decide⟩

/-- Once the source is exhausted and honors the sticky-exhaustion
contract, every further adapter pull yields `none` and the count is
frozen. -/
theorem runPulls_exhausted {σ α : Type} (it : Iter σ α)
    (hSticky : ∀ s : σ, (it.next s).1 = none →
      (it.next (it.next s).2).1 = none) :
    ∀ (ts : List Int) (q : ProgressRecorderIter σ),
      (it.next q.iter).1 = none →
      (runPulls it q ts).1 = List.replicate ts.length none ∧
      (runPulls it q ts).2.count = q.count := by
  intro ts
  induction ts with
  | nil => intro q hq; simp [runPulls]
  | cons t ts ih =>
      intro q hq
      rcases hnx : it.next q.iter with ⟨o, s⟩
      rw [hnx] at hq
      rcases o with _ | a
      · have hstep : ProgressRecorderIter.next it q t
            = (none, { q with iter := s }) := by
          simp [ProgressRecorderIter.next, hnx]
        have hs : (it.next s).1 = none := by
          have h3 := hSticky q.iter (by rw [hnx])
          rw [hnx] at h3
          simpa using h3
        obtain ⟨ih1, ih2⟩ := ih { q with iter := s } hs
        constructor
        · simp [runPulls, hstep, ih1, List.replicate_succ]
        · simpa [runPulls, hstep] using ih2
      · simp at hq

/-- C3 (amended): for every adapter whose source honors the
sticky-exhaustion contract (a pull that returned `none` is never followed
by an element from the source), once a call to the adapter returns
`none`, every subsequent call also returns `none`, no elements are ever
produced again, and the count never changes again. -/
theorem sticky_exhaustion_of_sticky_source {σ α : Type} (it : Iter σ α)
    (hSticky : ∀ s : σ, (it.next s).1 = none →
      (it.next (it.next s).2).1 = none)
    (p : ProgressRecorderIter σ) (t : Int)
    (h : (ProgressRecorderIter.next it p t).1 = none) (ts : List Int) :
    (runPulls it (ProgressRecorderIter.next it p t).2 ts).1
        = List.replicate ts.length none ∧
    (runPulls it (ProgressRecorderIter.next it p t).2 ts).2.count
        = p.count := by
  rcases hnx : it.next p.iter with ⟨o, s⟩
  rcases o with _ | a
  · have hstep : ProgressRecorderIter.next it p t
        = (none, { p with iter := s }) := by
      simp [ProgressRecorderIter.next, hnx]
    have hs : (it.next s).1 = none := by
      have h3 := hSticky p.iter (by rw [hnx])
      rw [hnx] at h3
      simpa using h3
    have hmain := runPulls_exhausted it hSticky ts { p with iter := s } hs
    rw [hstep]
    simpa using hmain
  · exfalso
    simp [ProgressRecorderIter.next, hnx] at h

/-- Witness for C3's amended theorem: the already-exhausted adapter over
the sticky finite source keeps answering `none` with a frozen count. -/
theorem sticky_exhaustion_of_sticky_source_witness :
    (runPulls srcFinTwo (ProgressRecorderIter.next srcFinTwo
        pExhausted 1).2 [2, 3]).1 = List.replicate 2 none ∧
    (runPulls srcFinTwo (ProgressRecorderIter.next srcFinTwo
        pExhausted 1).2 [2, 3]).2.count = pExhausted.count :=
  sticky_exhaustion_of_sticky_source srcFinTwo (by decide) pExhausted 1
    (by decide) [2, 3]

/-- C10: for every snapshot the adapter can produce (count ≥ 1, both
size-estimate components non-negative), whenever `fraction()` returns a
value it lies in (0, 1] — strictly positive, never above 1 — and any
value `percent()` returns lies in (0, 100]. -/
theorem fraction_in_unit_interval (r : ProgressRecord) (hc : 1 ≤ r.num_done) :
    (∀ q, r.fraction = some q → 0 < q ∧ q ≤ 1) ∧
    (∀ q, r.percent = some q → 0 < q ∧ q ≤ 100) := by
  have hnum : (0 : ℚ) < (r.num_done : ℚ) := by exact_mod_cast hc
  have hden : (0 : ℚ) < (((r.size_hint.1 + r.num_done : Nat)) : ℚ) := by
    exact_mod_cast Nat.lt_of_lt_of_le hc (Nat.le_add_left _ _)
  have hle : (r.num_done : ℚ) ≤ (((r.size_hint.1 + r.num_done : Nat)) : ℚ) := by
    exact_mod_cast Nat.le_add_left r.num_done r.size_hint.1
  have hfrac : ∀ q, r.fraction = some q → 0 < q ∧ q ≤ 1 := by
    intro q hq
    unfold ProgressRecord.fraction at hq
    by_cases hk : r.is_size_known
    · simp only [hk, if_true, Option.some.injEq] at hq
      rw [← hq]
      exact ⟨div_pos hnum hden, (div_le_one hden).mpr hle⟩
    · simp [hk] at hq
  refine ⟨hfrac, ?_⟩
  intro q hq
  unfold ProgressRecord.percent at hq
  rcases hf : r.fraction with _ | f
  · rw [hf] at hq
    cases hq
  · rw [hf] at hq
    simp only [Option.some.injEq] at hq
    obtain ⟨h1, h2⟩ := hfrac f hf
    rw [← hq]
    constructor
    · nlinarith
    · nlinarith

/-- Witness for C10: the first-pull record of the crate's own test has
fraction 1/5 and percent 20. -/
theorem fraction_in_unit_interval_witness :
    (0 < (1 : ℚ)/5 ∧ (1 : ℚ)/5 ≤ 1) ∧
    (0 < (1 : ℚ)/5 * 100 ∧ (1 : ℚ)/5 * 100 ≤ 100) :=
  ⟨(fraction_in_unit_interval rKnown (by decide)).1 ((1 : ℚ)/5)
      (by norm_num [ProgressRecord.fraction, ProgressRecord.is_size_known,
        rKnown, ProgressRecord.num_done]),
   (fraction_in_unit_interval rKnown (by decide)).2 ((1 : ℚ)/5 * 100)
      (by norm_num [ProgressRecord.percent, ProgressRecord.fraction,
        ProgressRecord.is_size_known, rKnown, ProgressRecord.num_done])⟩
